import Mathlib

/-!
Verification of the pv (pipe viewer) core against its specification.

This file gives a shallow embedding, in Lean 4, of the parts of the pv
source that the checked properties concern:

  * src/pv/elapsedtime.c  - timespec arithmetic (add / subtract)
  * src/pv/state.c        - the average-rate-window setter
  * src/pv/string.c       - pv_snprintf
  * src/pv/file.c         - pv_next_file
  * src/pv/loop.c         - per-tick accounting and the rate-limit token bucket
  * src/pv/calc.c         - pv_calculate_transfer_rate
  * src/pv/display.c      - pv__seconds_remaining, bound_long, pv_format
  * src/pv/format/eta.c   - the ETA value computed by the eta formatter

Modelling conventions:

  * C signed integers (off_t, long, long long, int) are modelled by Int.
    The values manipulated by the checked properties stay far below the
    64-bit overflow boundary, so overflow wrapping is not modelled; C
    signed overflow is undefined behaviour, so no property relies on it.
  * C long double values are modelled by the rationals, so every
    definition stays executable; the source only adds, subtracts,
    multiplies, divides and compares these values.
  * C integer division and modulus (which truncate toward zero) are
    modelled by cdiv and cmod below; a C cast of a long double to an
    integer type (also truncation toward zero) is modelled by ratTrunc.
  * C buffers holding strings are modelled by Lean lists of characters;
    the embedded strings never contain interior NUL bytes, so a C string
    in a buffer of size n is a list of length at most n - 1.
-/

/-- C integer division for a positive divisor: truncation toward zero, as
performed by the / operator on C integers. -/
def cdiv (a b : Int) : Int := if 0 ≤ a then a / b else -((-a) / b)

/-- C integer remainder for a positive divisor, defined so that
b * cdiv a b + cmod a b = a, as the C % operator behaves. -/
def cmod (a b : Int) : Int := a - b * cdiv a b

/-- C cast of a long double to an integer type: truncation toward zero. -/
def ratTrunc (q : ℚ) : Int := if 0 ≤ q then ⌊q⌋ else ⌈q⌉

theorem cdiv_nonneg_eq (a b : Int) (h : 0 ≤ a) : cdiv a b = a / b := by
  simp [cdiv, h]

theorem cmod_spec (a b : Int) : b * cdiv a b + cmod a b = a := by
  simp [cmod]

theorem cdiv_of_neg (a b : Int) (h : ¬ 0 ≤ a) : cdiv a b = -((-a) / b) := by
  simp [cdiv, h]

/-! ## src/pv/elapsedtime.c: timespec arithmetic (claim C9)

The timespec is two long long fields.  pv_elapsedtime_add and
pv_elapsedtime_subtract take possibly-NULL operand pointers, treating NULL
as a zero time; the embedding takes Option arguments the same way and
returns the value stored through the non-NULL result pointer. -/

/-- The struct timespec of the C library, as used by src/pv/elapsedtime.c:
both fields are long long once inside the arithmetic functions. -/
structure Timespec where
  tv_sec : Int
  tv_nsec : Int
deriving Repr, DecidableEq

/-- The sec field of an optional operand, with NULL treated as zero, as in
the accumulation loops of pv_elapsedtime_add and pv_elapsedtime_subtract. -/
def Timespec.secOf : Option Timespec → Int
  | none => 0
  | some t => t.tv_sec

/-- The nsec field of an optional operand, with NULL treated as zero. -/
def Timespec.nsecOf : Option Timespec → Int
  | none => 0
  | some t => t.tv_nsec

/-- pv_elapsedtime_add (src/pv/elapsedtime.c lines 95-121): sum the two
fields, then carry whole seconds out of the nanosecond field with C
division and remainder by 1000000000. -/
def pv_elapsedtime_add (first_time second_time : Option Timespec) : Timespec :=
  let seconds := Timespec.secOf first_time + Timespec.secOf second_time
  let nanoseconds := Timespec.nsecOf first_time + Timespec.nsecOf second_time
  let seconds := seconds + cdiv nanoseconds 1000000000
  let nanoseconds := cmod nanoseconds 1000000000
  { tv_sec := seconds, tv_nsec := nanoseconds }

/-- pv_elapsedtime_subtract (src/pv/elapsedtime.c lines 148-179): subtract
the fields, carry with C division and remainder by 1000000000, then fix a
negative nanosecond remainder by borrowing one second. -/
def pv_elapsedtime_subtract (first_time second_time : Option Timespec) : Timespec :=
  let seconds := Timespec.secOf first_time - Timespec.secOf second_time
  let nanoseconds := Timespec.nsecOf first_time - Timespec.nsecOf second_time
  let seconds := seconds + cdiv nanoseconds 1000000000
  let nanoseconds := cmod nanoseconds 1000000000
  if nanoseconds < 0 then
    { tv_sec := seconds - 1, tv_nsec := 1000000000 + nanoseconds }
  else
    { tv_sec := seconds, tv_nsec := nanoseconds }

/-- A timespec is normalized when its nanosecond field is in [0, 10^9). -/
def Timespec.normalized (t : Timespec) : Prop :=
  0 ≤ t.tv_nsec ∧ t.tv_nsec < 1000000000

instance (t : Timespec) : Decidable t.normalized := by
  unfold Timespec.normalized; infer_instance

theorem pv_elapsedtime_add_normalized (a b : Timespec)
    (ha : a.normalized) (hb : b.normalized) :
    (pv_elapsedtime_add (some a) (some b)).normalized := by
  obtain ⟨as, an⟩ := a
  obtain ⟨bs, bn⟩ := b
  obtain ⟨ha0, ha1⟩ := ha
  obtain ⟨hb0, hb1⟩ := hb
  simp only [pv_elapsedtime_add, Timespec.normalized, Timespec.secOf, Timespec.nsecOf,
    cmod, cdiv] at *
  split_ifs with h <;> omega

theorem pv_elapsedtime_subtract_normalized (a b : Timespec)
    (ha : a.normalized) (hb : b.normalized) :
    (pv_elapsedtime_subtract (some a) (some b)).normalized := by
  obtain ⟨as, an⟩ := a
  obtain ⟨bs, bn⟩ := b
  obtain ⟨ha0, ha1⟩ := ha
  obtain ⟨hb0, hb1⟩ := hb
  simp only [pv_elapsedtime_subtract, Timespec.normalized, Timespec.secOf, Timespec.nsecOf,
    cmod, cdiv] at *
  split_ifs with h1 h2 <;> simp only [Timespec.normalized] <;> omega

theorem pv_elapsedtime_sub_add_cancel (a b : Timespec)
    (ha : a.normalized) (hb : b.normalized) :
    pv_elapsedtime_subtract (some (pv_elapsedtime_add (some a) (some b))) (some b) = a := by
  obtain ⟨as, an⟩ := a
  obtain ⟨bs, bn⟩ := b
  obtain ⟨ha0, ha1⟩ := ha
  obtain ⟨hb0, hb1⟩ := hb
  simp only [pv_elapsedtime_add, pv_elapsedtime_subtract, Timespec.secOf, Timespec.nsecOf,
    cmod, cdiv] at *
  split_ifs with h1 h2 h3 h4 h5 h6 h7 <;> simp only [Timespec.mk.injEq] <;> omega

/-- C9: for normalized inputs, subtraction inverts addition, and both
operations return a normalized timespec. -/
theorem claim_c9_elapsedtime_roundtrip (a b : Timespec)
    (ha : a.normalized) (hb : b.normalized) :
    pv_elapsedtime_subtract (some (pv_elapsedtime_add (some a) (some b))) (some b) = a ∧
    (pv_elapsedtime_add (some a) (some b)).normalized ∧
    (pv_elapsedtime_subtract (some a) (some b)).normalized :=
  ⟨pv_elapsedtime_sub_add_cancel a b ha hb,
   pv_elapsedtime_add_normalized a b ha hb,
   pv_elapsedtime_subtract_normalized a b ha hb⟩

/-- C9 witness: the round trip and normalization at a concrete pair. -/
theorem claim_c9_elapsedtime_roundtrip_witness :
    pv_elapsedtime_subtract
        (some (pv_elapsedtime_add (some ⟨3, 999999999⟩) (some ⟨5, 2⟩))) (some ⟨5, 2⟩) =
      (⟨3, 999999999⟩ : Timespec) ∧
    (pv_elapsedtime_add (some ⟨3, 999999999⟩) (some ⟨5, 2⟩)).normalized ∧
    (pv_elapsedtime_subtract (some ⟨3, 999999999⟩) (some ⟨5, 2⟩)).normalized :=
  claim_c9_elapsedtime_roundtrip ⟨3, 999999999⟩ ⟨5, 2⟩ (by decide) (by decide)

/-! ## src/pv/state.c: the average-rate-window setter (claim C7) -/

/-- pv_state_average_rate_window_set (src/pv/state.c lines 342-354): the
window W is first raised to a minimum of 1; a window below 20 seconds gets
one history slot per second, a larger window one slot per 5 seconds.  The
result is the pair (history_len, history_interval) stored in the state. -/
def pv_state_average_rate_window_set (val : Nat) : Nat × Nat :=
  let val := if val < 1 then 1 else val
  if val ≥ 20 then
    (val / 5 + 1, 5)
  else
    (val + 1, 1)

/-- C7 counterexample: for W = 0 the code stores history_len = 2, not
W + 1 = 1 as the claim states. -/
theorem claim_c7_counterexample :
    pv_state_average_rate_window_set 0 = (2, 1) ∧
    ¬(pv_state_average_rate_window_set 0 = (0 + 1, 1)) := by
  constructor
  · rfl
  · decide

/-- C7 amended: the window is first clamped to a minimum of 1; after that,
a window W below 20 gives history_len = W + 1 with a 1-second interval and
a window of 20 or more gives history_len = W / 5 + 1 with a 5-second
interval; history_len is always at least 2 (so in particular at least 1). -/
theorem claim_c7_amended (w : Nat) :
    (1 ≤ w → w < 20 → pv_state_average_rate_window_set w = (w + 1, 1)) ∧
    (20 ≤ w → pv_state_average_rate_window_set w = (w / 5 + 1, 5)) ∧
    (w = 0 → pv_state_average_rate_window_set w = (2, 1)) ∧
    2 ≤ (pv_state_average_rate_window_set w).1 := by
  simp only [pv_state_average_rate_window_set]
  refine ⟨?_, ?_, ?_, ?_⟩
  · intro h1 h2
    simp only [show ¬(w < 1) by omega, if_false, show ¬(w ≥ 20) by omega, if_false]
  · intro h
    simp only [show ¬(w < 1) by omega, if_false, show w ≥ 20 by omega, if_true]
  · intro h
    subst h
    rfl
  · split_ifs with h1 h2 h3 <;> simp <;> omega

/-- C7 amended witness: concrete evaluations at 5, 20 and 0. -/
theorem claim_c7_amended_witness :
    pv_state_average_rate_window_set 5 = (5 + 1, 1) ∧
    pv_state_average_rate_window_set 20 = (20 / 5 + 1, 5) ∧
    pv_state_average_rate_window_set 0 = (2, 1) :=
  ⟨(claim_c7_amended 5).1 (by decide) (by decide),
   (claim_c7_amended 20).2.1 (by decide),
   (claim_c7_amended 0).2.2.1 rfl⟩

/-! ## src/pv/string.c: pv_snprintf (claim C10)

pv_snprintf delegates the formatting itself to the vsnprintf of the C
library, which is outside this repository; its contract is modelled: it
writes at most size - 1 bytes of the rendered output, terminates them with
a NUL byte, and returns the full (untruncated) length of the rendered
output.  The rendered output is passed in as the "formatted" argument. -/

/-- The NUL byte. -/
def NUL : Char := Char.ofNat 0

/-- The effect of vsnprintf(str, size, ...) on a buffer, for size ≥ 1
and a rendered output "content" free of NUL bytes: the first
min(len(content), size - 1) bytes are the truncated output, the next byte
is NUL, and the rest of the buffer is untouched. -/
def vsnprintf_write (buf : List Char) (size : Nat) (content : List Char) : List Char :=
  let w := min content.length (size - 1)
  content.take w ++ [NUL] ++ buf.drop (w + 1)

/-- pv_snprintf (src/pv/string.c lines 27-59): NULL buffer, zero size or
NULL format give -1; otherwise vsnprintf runs and the last in-bounds byte
str[size - 1] is forced to NUL.  A NULL pointer is modelled by none.  The
returned pair is (return value, final buffer contents). -/
def pv_snprintf (str : Option (List Char)) (size : Nat) (format : Option (List Char))
    (formatted : List Char) : Int × Option (List Char) :=
  match str with
  | none => (-1, none)
  | some buf =>
    if size = 0 then (-1, some buf)
    else
      match format with
      | none => (-1, some buf)
      | some _ =>
        let buf := buf.set 0 NUL
        let buf := vsnprintf_write buf size formatted
        let buf := buf.set (size - 1) NUL
        ((formatted.length : Int), some buf)

theorem vsnprintf_write_length (buf : List Char) (size : Nat) (content : List Char)
    (h1 : 1 ≤ size) (h2 : size ≤ buf.length) :
    (vsnprintf_write buf size content).length = buf.length := by
  unfold vsnprintf_write
  simp only [List.length_append, List.length_take, List.length_cons, List.length_nil,
    List.length_drop]
  omega

/-- C10, part 1: pv_snprintf returns -1 exactly when the buffer is NULL,
the size is 0, or the format is NULL. -/
theorem pv_snprintf_minus_one_iff (str : Option (List Char)) (size : Nat)
    (format : Option (List Char)) (formatted : List Char) :
    (pv_snprintf str size format formatted).1 = -1 ↔
      (str = none ∨ size = 0 ∨ format = none) := by
  match str with
  | none => simp [pv_snprintf]
  | some buf =>
    match format with
    | none =>
      by_cases hs : size = 0 <;> simp [pv_snprintf, hs]
    | some f =>
      by_cases hs : size = 0 <;> simp [pv_snprintf, hs]

/-- The final buffer contents of a successful pv_snprintf call. -/
def pv_snprintf_out (buf : List Char) (size : Nat) (formatted : List Char) : List Char :=
  (vsnprintf_write (buf.set 0 NUL) size formatted).set (size - 1) NUL

/-- C10, part 2: in every non-error case the buffer keeps its length and
its byte at index size - 1 is NUL, so the string stored in it is
terminated within the given size whether or not truncation occurred. -/
theorem pv_snprintf_terminated (buf : List Char) (size : Nat)
    (format : List Char) (formatted : List Char)
    (h1 : 1 ≤ size) (h2 : size ≤ buf.length) :
    ∃ out : List Char,
      (pv_snprintf (some buf) size (some format) formatted).2 = some out ∧
      out.length = buf.length ∧
      out.get? (size - 1) = some NUL := by
  have hs0 : ¬(size = 0) := by omega
  have hlen : size - 1 < (vsnprintf_write (buf.set 0 NUL) size formatted).length := by
    rw [vsnprintf_write_length _ size formatted h1 (by simpa using h2)]
    simp only [List.length_set]
    omega
  refine ⟨pv_snprintf_out buf size formatted, ?_, ?_, ?_⟩
  · simp only [pv_snprintf, hs0, if_false, pv_snprintf_out]
  · simp only [pv_snprintf_out, List.length_set]
    rw [vsnprintf_write_length _ size formatted h1 (by simpa using h2)]
    simp
  · simp only [pv_snprintf_out]
    rw [List.get?_eq_getElem?]
    rw [List.getElem?_set_self (by simpa using hlen)]

/-- C10: pv_snprintf returns -1 exactly when its buffer is NULL, its size
is 0 or its format is NULL, and in every other case the buffer keeps its
length and holds a NUL byte at index size - 1, so the stored string is
terminated within the given size whether or not truncation occurred. -/
theorem claim_c10_pv_snprintf (str : Option (List Char)) (size : Nat)
    (format : Option (List Char)) (buf : List Char)
    (fmt formatted : List Char) (h1 : 1 ≤ size) (h2 : size ≤ buf.length) :
    ((pv_snprintf str size format formatted).1 = -1 ↔
      (str = none ∨ size = 0 ∨ format = none)) ∧
    (∃ out : List Char,
      (pv_snprintf (some buf) size (some fmt) formatted).2 = some out ∧
      out.length = buf.length ∧
      out.get? (size - 1) = some NUL) :=
  ⟨pv_snprintf_minus_one_iff str size format formatted,
   pv_snprintf_terminated buf size fmt formatted h1 h2⟩

/-- C10 witness: both parts at a concrete buffer, size and rendering. -/
theorem claim_c10_witness :
    ((pv_snprintf (some ['a', 'b', 'c', 'd']) 3 (some ['x']) ['y', 'z', 'w']).1 = -1 ↔
      ((some ['a', 'b', 'c', 'd'] : Option (List Char)) = none ∨ (3 : Nat) = 0 ∨
        (some ['x'] : Option (List Char)) = none)) ∧
    ∃ out : List Char,
      (pv_snprintf (some ['a', 'b', 'c', 'd']) 3 (some ['x']) ['y', 'z', 'w']).2 = some out ∧
      out.length = (['a', 'b', 'c', 'd'] : List Char).length ∧
      out.get? (3 - 1) = some NUL :=
  claim_c10_pv_snprintf (some ['a', 'b', 'c', 'd']) 3 (some ['x'])
    ['a', 'b', 'c', 'd'] ['x'] ['y', 'z', 'w'] (by decide) (by decide)

/-! ## src/pv/file.c: pv_next_file (claim C8)

pv_next_file interacts with the file system through close, open, fstat and
isatty; the embedding takes the outcomes of those system calls as
arguments and reproduces the branching of the function itself.  The stat
buffer is reduced to the fields pv_next_file reads: device, inode, and
whether the mode is a regular file or a block device. -/

/-- The fields of struct stat that pv_next_file inspects. -/
structure CStat where
  st_dev : Int
  st_ino : Int
  st_mode_reg : Bool
  st_mode_blk : Bool
deriving Repr, DecidableEq

/-- The result of pv_next_file: the returned descriptor, the updated
exit status, and whether the freshly opened descriptor was closed again
before returning. -/
structure NextFileResult where
  fd : Int
  exit_status : Nat
  closed_new_fd : Bool
deriving Repr, DecidableEq

/-- pv_next_file (src/pv/file.c lines 249-337).  Arguments mirror the
system-call outcomes in the order the code performs them: close of oldfd
(close_ok), the bounds checks on filenum, open of the named file (or reuse
of stdin when the name is "-"), fstat of the new descriptor and of stdout,
and isatty of the new descriptor.  The O_DIRECT fcntl at the end does not
affect the returned values. -/
def pv_next_file (oldfd : Int) (close_ok : Bool) (filenum input_file_count : Int)
    (reads_stdin : Bool) (open_result : Int) (fstat_in fstat_out : Option CStat)
    (fd_isatty : Bool) (exit_status : Nat) : NextFileResult :=
  if oldfd > 0 ∧ ¬close_ok then
    { fd := -1, exit_status := exit_status ||| 8, closed_new_fd := false }
  else if filenum ≥ input_file_count then
    { fd := -1, exit_status := exit_status ||| 8, closed_new_fd := false }
  else if filenum < 0 then
    { fd := -1, exit_status := exit_status ||| 8, closed_new_fd := false }
  else if ¬reads_stdin ∧ open_result < 0 then
    { fd := -1, exit_status := exit_status ||| 2, closed_new_fd := false }
  else
    let fd := if reads_stdin then 0 else open_result
    match fstat_in with
    | none => { fd := -1, exit_status := exit_status ||| 2, closed_new_fd := true }
    | some isb =>
      match fstat_out with
      | none => { fd := -1, exit_status := exit_status ||| 2, closed_new_fd := true }
      | some osb =>
        let input_file_is_stdout :=
          isb.st_dev = osb.st_dev ∧ isb.st_ino = osb.st_ino ∧ ¬fd_isatty ∧
            (isb.st_mode_reg ∨ isb.st_mode_blk)
        if input_file_is_stdout then
          { fd := -1, exit_status := exit_status ||| 4, closed_new_fd := true }
        else
          { fd := fd, exit_status := exit_status, closed_new_fd := false }

/-- C8: when the next input file has the same device and inode as stdout,
is not a tty, and is a regular file or block device, pv_next_file closes
it, sets the 4 bit of the exit status, and returns a negative descriptor -
provided the call gets as far as the identity check (the earlier close,
bounds and open steps succeed). -/
theorem claim_c8_input_is_output (oldfd : Int) (close_ok : Bool)
    (filenum input_file_count : Int) (reads_stdin : Bool) (open_result : Int)
    (isb osb : CStat) (fd_isatty : Bool) (exit_status : Nat)
    (hclose : oldfd ≤ 0 ∨ close_ok)
    (hnum : 0 ≤ filenum ∧ filenum < input_file_count)
    (hopen : reads_stdin ∨ 0 ≤ open_result)
    (hdev : isb.st_dev = osb.st_dev) (hino : isb.st_ino = osb.st_ino)
    (htty : ¬fd_isatty) (hmode : isb.st_mode_reg ∨ isb.st_mode_blk) :
    (pv_next_file oldfd close_ok filenum input_file_count reads_stdin open_result
        (some isb) (some osb) fd_isatty exit_status).fd < 0 ∧
    (pv_next_file oldfd close_ok filenum input_file_count reads_stdin open_result
        (some isb) (some osb) fd_isatty exit_status).exit_status = exit_status ||| 4 ∧
    ((pv_next_file oldfd close_ok filenum input_file_count reads_stdin open_result
        (some isb) (some osb) fd_isatty exit_status).exit_status.testBit 2 = true) ∧
    (pv_next_file oldfd close_ok filenum input_file_count reads_stdin open_result
        (some isb) (some osb) fd_isatty exit_status).closed_new_fd = true := by
  have h1 : ¬(oldfd > 0 ∧ ¬close_ok) := by
    rintro ⟨hgt, hnc⟩
    rcases hclose with h | h
    · omega
    · exact hnc h
  have h2 : ¬(filenum ≥ input_file_count) := by omega
  have h3 : ¬(filenum < 0) := by omega
  have h4 : ¬(¬reads_stdin ∧ open_result < 0) := by
    rcases hopen with h | h
    · simp [h]
    · intro hc
      omega
  have h5 : isb.st_dev = osb.st_dev ∧ isb.st_ino = osb.st_ino ∧ ¬fd_isatty ∧
      (isb.st_mode_reg ∨ isb.st_mode_blk) := ⟨hdev, hino, htty, hmode⟩
  simp only [pv_next_file, h1, h2, h3, h4, if_false, h5, if_true]
  refine ⟨by norm_num, rfl, ?_, rfl⟩
  have h42 : Nat.testBit 4 2 = true := by decide
  simp [Nat.testBit_or, h42]

/-- C8 witness: the failure at a concrete same-device same-inode regular
file, with stdout on the same device and inode. -/
theorem claim_c8_input_is_output_witness :
    (pv_next_file 3 true 0 1 false 4
        (some ⟨10, 20, true, false⟩) (some ⟨10, 20, true, false⟩) false 0).fd < 0 ∧
    (pv_next_file 3 true 0 1 false 4
        (some ⟨10, 20, true, false⟩) (some ⟨10, 20, true, false⟩) false 0).exit_status =
      0 ||| 4 ∧
    ((pv_next_file 3 true 0 1 false 4
        (some ⟨10, 20, true, false⟩) (some ⟨10, 20, true, false⟩) false 0).exit_status.testBit 2 =
      true) ∧
    (pv_next_file 3 true 0 1 false 4
        (some ⟨10, 20, true, false⟩) (some ⟨10, 20, true, false⟩) false 0).closed_new_fd = true :=
  claim_c8_input_is_output 3 true 0 1 false 4
    ⟨10, 20, true, false⟩ ⟨10, 20, true, false⟩ false 0
    (Or.inr rfl) (by omega) (Or.inr (by omega)) rfl rfl (by simp) (Or.inl rfl)

/-! ## src/pv/loop.c: per-tick accounting of total_written (claim C3)

pv_main_loop adds the per-tick result of pv_transfer to
state.transfer.total_written (src/pv/loop.c lines 266-285); a negative
result is a fatal write error and ends the loop before any accounting.
pv_transfer itself is in src/pv/transfer.c, which is not part of this
source tree.  Modelled from the spec: pv_transfer returns the number of
bytes written this tick, or -1 on fatal write error, and in line mode
stores in lines_written the count of line terminators among the bytes just
written, which is never negative. -/

/-- One accounting step of pv_main_loop (src/pv/loop.c lines 266-285):
given the tick results of pv_transfer, none means the loop returned on a
fatal write error, and otherwise the new total_written is returned. -/
def pv_main_loop_account (linemode : Bool) (total_written : Int)
    (written lineswritten : Int) : Option Int :=
  if written < 0 then
    none
  else if linemode then
    some (total_written + lineswritten)
  else
    some (total_written + written)

/-- The successive total_written values over a run of ticks, each tick
described by the pair (written, lineswritten) that pv_transfer produced;
the run stops at the first fatal write error. -/
def pv_main_loop_totals (linemode : Bool) : Int → List (Int × Int) → List Int
  | _, [] => []
  | total, tick :: rest =>
    match pv_main_loop_account linemode total tick.1 tick.2 with
    | none => []
    | some total2 => total2 :: pv_main_loop_totals linemode total2 rest

/-- C3: total_written never decreases across ticks: whenever pv_transfer
reports no fatal write error, a non-negative byte count (or, in line mode,
line count) is added and nothing is ever subtracted. -/
theorem claim_c3_total_written_monotone (linemode : Bool) (start : Int)
    (ticks : List (Int × Int)) (hlines : ∀ t ∈ ticks, 0 ≤ t.2) :
    List.Chain' (· ≤ ·) (start :: pv_main_loop_totals linemode start ticks) := by
  induction ticks generalizing start with
  | nil => simp [pv_main_loop_totals]
  | cons tick rest ih =>
    have htick : 0 ≤ tick.2 := hlines tick (by simp)
    have hrest : ∀ t ∈ rest, 0 ≤ t.2 := fun t ht => hlines t (by simp [ht])
    simp only [pv_main_loop_totals]
    cases hacc : pv_main_loop_account linemode start tick.1 tick.2 with
    | none => simp
    | some total2 =>
      have hle : start ≤ total2 := by
        unfold pv_main_loop_account at hacc
        split_ifs at hacc with h1 h2 <;> simp_all <;> omega
      have := ih total2 hrest
      exact List.Chain'.cons hle this

/-- C3 witness: a concrete three-tick run in byte mode stays monotone. -/
theorem claim_c3_total_written_monotone_witness :
    List.Chain' (· ≤ ·)
      (0 :: pv_main_loop_totals false 0 [(5, 0), (0, 0), (7, 1)]) :=
  claim_c3_total_written_monotone false 0 [(5, 0), (0, 0), (7, 1)] (by decide)

/-! ## src/pv/loop.c: the rate-limit token bucket (claim C6) -/

/-- RATE_GRANULARITY (src/include/pv-internal.h line 23): nanoseconds
between rate-limit refills. -/
def RATE_GRANULARITY : ℚ := 100000000

/-- RATE_BURST_WINDOW (src/include/pv-internal.h line 24): burst cap as a
multiple of the rate limit. -/
def RATE_BURST_WINDOW : Int := 5

/-- The rate-limit block at the top of a tick (src/pv/loop.c lines
229-243).  due is the outcome of the elapsed-time comparison with
next_ratecheck.  Returns the new accumulator target and the off_t budget
cansend handed to pv_transfer; without a rate limit cansend stays 0. -/
def pv_main_loop_ratecheck (rate_limit : Int) (target : ℚ) (due : Bool) : ℚ × Int :=
  if 0 < rate_limit then
    let target :=
      if due then
        let refilled := target + (rate_limit : ℚ) / ((1000000000 : ℚ) / RATE_GRANULARITY)
        let burst_max : ℚ := ((rate_limit * RATE_BURST_WINDOW : Int) : ℚ)
        if refilled > burst_max then burst_max else refilled
      else target
    (target, ratTrunc target)
  else (target, 0)

/-- The post-transfer spending of the budget (src/pv/loop.c lines
277-285): with a rate limit active, the amount written this tick (bytes,
or lines in line mode) is subtracted from the accumulator. -/
def pv_main_loop_spend (rate_limit : Int) (target : ℚ) (amount : Int) : ℚ :=
  if 0 < rate_limit then target - (amount : ℚ) else target

theorem ratTrunc_le_of_le (q : ℚ) (n : Int) (h : q ≤ (n : ℚ)) :
    ratTrunc q ≤ n := by
  unfold ratTrunc
  split_ifs with hq
  · calc ⌊q⌋ ≤ ⌊(n : ℚ)⌋ := Int.floor_le_floor h
    _ = n := Int.floor_intCast n
  · exact Int.ceil_le.mpr h

/-- C6: with a rate limit configured, a due refill adds rate_limit / 10
(one tenth of a second's allowance per 100 ms period) and then caps the
accumulator at RATE_BURST_WINDOW times the limit; if the accumulator
respected that cap before the tick, the budget cansend given to
pv_transfer never exceeds 5 times the limit, and the cap still holds after
the refill and after the spending step. -/
theorem claim_c6_token_bucket (rate_limit : Int) (target : ℚ) (due : Bool)
    (spent : Int) (hl : 0 < rate_limit)
    (hcap : target ≤ ((5 * rate_limit : Int) : ℚ)) (hspent : 0 ≤ spent) :
    (due = true →
      (pv_main_loop_ratecheck rate_limit target due).1 =
        min (target + (rate_limit : ℚ) / 10) ((5 * rate_limit : Int) : ℚ)) ∧
    (pv_main_loop_ratecheck rate_limit target due).2 ≤ 5 * rate_limit ∧
    (pv_main_loop_ratecheck rate_limit target due).1 ≤ ((5 * rate_limit : Int) : ℚ) ∧
    pv_main_loop_spend rate_limit (pv_main_loop_ratecheck rate_limit target due).1 spent ≤
      ((5 * rate_limit : Int) : ℚ) := by
  have hGran : (1000000000 : ℚ) / RATE_GRANULARITY = 10 := by
    norm_num [RATE_GRANULARITY]
  have hBurst : ((rate_limit * RATE_BURST_WINDOW : Int) : ℚ) = ((5 * rate_limit : Int) : ℚ) := by
    norm_num [RATE_BURST_WINDOW]
    ring
  have hcap2 : (pv_main_loop_ratecheck rate_limit target due).1 ≤
      ((5 * rate_limit : Int) : ℚ) := by
    unfold pv_main_loop_ratecheck
    simp only [hl, if_true, hGran, hBurst]
    cases due with
    | false => simpa using hcap
    | true =>
      simp only [if_true]
      split_ifs with h
      · exact le_rfl
      · exact not_lt.mp h
  refine ⟨?_, ?_, hcap2, ?_⟩
  · intro hdue
    subst hdue
    unfold pv_main_loop_ratecheck
    simp only [hl, if_true, hGran, hBurst]
    split_ifs with h
    · exact (min_eq_right (le_of_lt h)).symm
    · exact (min_eq_left (not_lt.mp h)).symm
  · have := ratTrunc_le_of_le (pv_main_loop_ratecheck rate_limit target due).1
      (5 * rate_limit) hcap2
    unfold pv_main_loop_ratecheck at this ⊢
    simp only [hl, if_true] at this ⊢
    exact this
  · unfold pv_main_loop_spend
    simp only [hl, if_true]
    have : (0 : ℚ) ≤ (spent : ℚ) := by exact_mod_cast hspent
    linarith

/-- C6 witness: limit 8, accumulator 39 and a due refill give a capped
accumulator of 40 and a budget of 40 = 5 times the limit. -/
theorem claim_c6_token_bucket_witness :
    ((true : Bool) = true →
      (pv_main_loop_ratecheck 8 39 true).1 =
        min ((39 : ℚ) + (8 : ℚ) / 10) ((5 * 8 : Int) : ℚ)) ∧
    (pv_main_loop_ratecheck 8 39 true).2 ≤ 5 * 8 ∧
    (pv_main_loop_ratecheck 8 39 true).1 ≤ ((5 * 8 : Int) : ℚ) ∧
    pv_main_loop_spend 8 (pv_main_loop_ratecheck 8 39 true).1 3 ≤ ((5 * 8 : Int) : ℚ) :=
  claim_c6_token_bucket 8 39 true 3 (by norm_num) (by norm_num) (by norm_num)

/-! ## ETA: src/pv/display.c and src/pv/format/eta.c (claim C5) -/

/-- bound_long (src/pv/display.c lines 174-177), called pv_bound_long at
its use in src/pv/format/eta.c: clamp x into [lower, upper]. -/
def pv_bound_long (x lower upper : Int) : Int :=
  if x < lower then lower else if x > upper then upper else x

/-- pv__seconds_remaining (src/pv/display.c lines 185-195): zero until at
least one unit is past so_far or while the rate is below 0.001, otherwise
the remaining amount divided by the rate, truncated to a long. -/
def pv__seconds_remaining (so_far total : Int) (rate : ℚ) : Int :=
  if so_far < 1 ∨ rate < 1 / 1000 then 0
  else ratTrunc (((total - so_far : Int) : ℚ) / rate)

/-- The ETA value computed by pv_formatter_eta (src/pv/format/eta.c lines
34-42) when the size is known: seconds remaining for the transfer past the
initial offset, clamped into [0, 360000000] before formatting. -/
def pv_formatter_eta_value (size transferred initial_offset : Int)
    (current_avg_rate : ℚ) : Int :=
  pv_bound_long
    (pv__seconds_remaining (transferred - initial_offset) (size - initial_offset)
      current_avg_rate)
    0 360000000

/-- C5 counterexample: with size 100, nothing transferred yet, no initial
offset and an average rate of 1 (well above 0.001), the code shows an ETA
of 0 while the claimed formula gives (100 - 0) / 1 = 100 clamped to 100. -/
theorem claim_c5_counterexample :
    pv_formatter_eta_value 100 0 0 1 = 0 ∧
    pv_bound_long (ratTrunc (((100 - 0 : Int) : ℚ) / 1)) 0 360000000 = 100 ∧
    ¬(pv_formatter_eta_value 100 0 0 1 =
        pv_bound_long (ratTrunc (((100 - 0 : Int) : ℚ) / 1)) 0 360000000) := by
  refine ⟨?_, ?_, ?_⟩
  · rfl
  · norm_num [pv_bound_long, ratTrunc]
  · norm_num [pv_formatter_eta_value, pv__seconds_remaining, pv_bound_long, ratTrunc]

/-- C5 amended: the ETA equals (size - transferred) / current_avg_rate,
truncated toward zero and clamped into [0, 360000000], whenever the rate
is at least 0.001 AND at least one unit has been transferred past the
initial offset; it is 0 when the rate is below 0.001 or when nothing has
been transferred past the initial offset yet; in every case the value lies
in [0, 360000000]. -/
theorem claim_c5_amended (size transferred initial_offset : Int) (rate : ℚ) :
    (1 / 1000 ≤ rate → 1 ≤ transferred - initial_offset →
      pv_formatter_eta_value size transferred initial_offset rate =
        pv_bound_long (ratTrunc (((size - transferred : Int) : ℚ) / rate)) 0 360000000) ∧
    (rate < 1 / 1000 ∨ transferred - initial_offset < 1 →
      pv_formatter_eta_value size transferred initial_offset rate = 0) ∧
    0 ≤ pv_formatter_eta_value size transferred initial_offset rate ∧
    pv_formatter_eta_value size transferred initial_offset rate ≤ 360000000 := by
  have hbound : ∀ x : Int, 0 ≤ pv_bound_long x 0 360000000 ∧
      pv_bound_long x 0 360000000 ≤ 360000000 := by
    intro x
    unfold pv_bound_long
    split_ifs <;> omega
  refine ⟨?_, ?_, (hbound _).1, (hbound _).2⟩
  · intro hrate hsofar
    unfold pv_formatter_eta_value pv__seconds_remaining
    have hcond : ¬(transferred - initial_offset < 1 ∨ rate < 1 / 1000) := by
      push_neg
      exact ⟨by omega, hrate⟩
    rw [if_neg hcond]
    have : ((size - initial_offset) - (transferred - initial_offset) : Int) =
        (size - transferred : Int) := by ring
    rw [this]
  · intro h
    unfold pv_formatter_eta_value pv__seconds_remaining
    have hcond : (transferred - initial_offset < 1 ∨ rate < 1 / 1000) := by
      rcases h with h | h
      · exact Or.inr h
      · exact Or.inl (by omega)
    rw [if_pos hcond]
    rfl

/-- C5 amended witness: concrete evaluation with one byte transferred. -/
theorem claim_c5_amended_witness :
    ((1 : ℚ) / 1000 ≤ (2 : ℚ) → (1 : Int) ≤ 1 - 0 →
      pv_formatter_eta_value 201 1 0 2 =
        pv_bound_long (ratTrunc (((201 - 1 : Int) : ℚ) / 2)) 0 360000000) ∧
    ((2 : ℚ) < 1 / 1000 ∨ (1 : Int) - 0 < 1 →
      pv_formatter_eta_value 201 1 0 2 = 0) ∧
    0 ≤ pv_formatter_eta_value 201 1 0 2 ∧
    pv_formatter_eta_value 201 1 0 2 ≤ 360000000 :=
  claim_c5_amended 201 1 0 2

/-! ## src/pv/calc.c: pv_calculate_transfer_rate (claims C1 and C4)

The embedding carries exactly the state fields the function reads or
writes: control.size, control.bits, control.history_interval,
transfer.total_written, transfer.elapsed_seconds (written back on a final
update), display.initial_offset, and the whole of state->calc.  The
function body is split into named stages matching consecutive line ranges
of the C function; pv_calculate_transfer_rate composes the stages in
source order. -/

/-- One slot of the rate history ring buffer. -/
structure HistEntry where
  elapsed_sec : ℚ
  total_written : Int
deriving Repr, DecidableEq

/-- The calculation state, state->calc in src/include/pv-internal.h. -/
structure PvCalc where
  prev_total_written : Int
  prev_elapsed_sec : ℚ
  prev_rate : ℚ
  prev_trans : Int
  rate_min : ℚ
  rate_max : ℚ
  rate_sum : ℚ
  ratesquared_sum : ℚ
  measurements_taken : Int
  history : Option (Array HistEntry)
  history_first : Nat
  history_last : Nat
  current_avg_rate : ℚ
  transfer_rate : ℚ
  average_rate : ℚ
  percentage : Int
deriving Repr, DecidableEq

/-- The transfer-state fields that pv_calculate_transfer_rate touches. -/
structure PvTransfer where
  total_written : Int
  elapsed_seconds : ℚ
deriving Repr, DecidableEq

/-- The control fields that pv_calculate_transfer_rate reads. -/
structure PvControl where
  size : Int
  bits : Bool
  history_interval : ℚ
deriving Repr, DecidableEq

/-- A history slot read, with the NULL entry for an index outside the
allocated ring; the code only ever uses indices reduced modulo the ring
length, so the default is never reached on an allocated history. -/
def histRead (hist : Array HistEntry) (idx : Nat) : HistEntry :=
  (hist.get? idx).getD { elapsed_sec := 0, total_written := 0 }

/-- pv__update_average_rate_history (src/pv/calc.c lines 20-63): a NULL
history is left alone; otherwise, once at least history_interval seconds
have passed since the newest entry (or always, for the very first entry,
recognized by a zero elapsed time in the newest slot), the ring gains an
entry, evicting the oldest when full, and current_avg_rate becomes the
rate between the oldest and newest entries (or the given instantaneous
rate when only one entry exists). -/
def pv__update_average_rate_history (calcst : PvCalc) (transfer : PvTransfer)
    (history_interval : ℚ) (rate : ℚ) : PvCalc :=
  match calcst.history with
  | none => calcst
  | some hist =>
    let first := calcst.history_first
    let last := calcst.history_last
    let last_elapsed := (histRead hist last).elapsed_sec
    if 0 < last_elapsed ∧ transfer.elapsed_seconds < last_elapsed + history_interval then
      calcst
    else
      let len := hist.size
      let last2 := if 0 < last_elapsed then (last + 1) % len else last
      let first2 := if 0 < last_elapsed ∧ last2 = first then (first + 1) % len else first
      let hist2 := hist.setD last2
        { elapsed_sec := transfer.elapsed_seconds, total_written := transfer.total_written }
      let avg :=
        if first2 = last2 then rate
        else
          ((histRead hist2 last2).total_written - (histRead hist2 first2).total_written : Int) /
            ((histRead hist2 last2).elapsed_sec - (histRead hist2 first2).elapsed_sec)
      { calcst with
        history := some hist2
        history_first := first2
        history_last := last2
        current_avg_rate := avg }

/-- Modelled from the spec: pv_percentage is declared in src/include/pv.h
and defined outside this source tree; per spec section 4.5 the percentage
of a known-size transfer is 100 times total_written divided by size (C
integer division). -/
def pv_percentage (numerator denominator : Int) : Int :=
  cdiv (100 * numerator) denominator

/-- Lines 87-125 of src/pv/calc.c: bytes since last call, the anti-spike
rate measurement, and the min/max/sum/sum-of-squares statistics.  Returns
the updated calc state and the local transfer_rate. -/
def pv_calculate_transfer_rate_measure (control : PvControl) (transfer : PvTransfer)
    (calcst : PvCalc) : PvCalc × ℚ :=
  let bytes_since_last := if 0 ≤ transfer.total_written
    then transfer.total_written - calcst.prev_total_written else 0
  let calcst := if 0 ≤ transfer.total_written
    then { calcst with prev_total_written := transfer.total_written } else calcst
  let time_since_last := transfer.elapsed_seconds - calcst.prev_elapsed_sec
  if time_since_last ≤ 1 / 100 then
    let calcst := { calcst with
      prev_trans := calcst.prev_trans + bytes_since_last }
    ({ calcst with prev_rate := calcst.prev_rate }, calcst.prev_rate)
  else
    let transfer_rate :=
      ((bytes_since_last + calcst.prev_trans : Int) : ℚ) / time_since_last
    let measured_rate := if control.bits then 8 * transfer_rate else transfer_rate
    let calcst := { calcst with
      prev_elapsed_sec := transfer.elapsed_seconds
      prev_trans := 0 }
    let calcst := { calcst with
      rate_min := if calcst.measurements_taken < 1 ∨ measured_rate < calcst.rate_min
        then measured_rate else calcst.rate_min
      rate_max := if measured_rate > calcst.rate_max then measured_rate else calcst.rate_max
      rate_sum := calcst.rate_sum + measured_rate
      ratesquared_sum := calcst.ratesquared_sum + measured_rate * measured_rate
      measurements_taken := calcst.measurements_taken + 1 }
    ({ calcst with prev_rate := transfer_rate }, transfer_rate)

/-- Lines 136-144 of src/pv/calc.c: on the final update, clamp the elapsed
time away from zero (writing it back to the transfer state) and replace
both rates with the whole-transfer average.  Returns the possibly updated
transfer state, the transfer rate and the average rate. -/
def pv_calculate_transfer_rate_final (transfer : PvTransfer) (initial_offset : Int)
    (final : Bool) (transfer_rate average_rate : ℚ) : PvTransfer × ℚ × ℚ :=
  if final then
    let elapsed := if transfer.elapsed_seconds < 1 / 1000000
      then (1 / 1000000 : ℚ) else transfer.elapsed_seconds
    let avg := ((transfer.total_written : ℚ) - (initial_offset : ℚ)) / elapsed
    ({ transfer with elapsed_seconds := elapsed }, avg, avg)
  else
    (transfer, transfer_rate, average_rate)

/-- Lines 149-170 of src/pv/calc.c: the percentage update.  With an
unknown size the percentage steps by 2 on a positive rate and resets to 0
above 199; with a known size it is pv_percentage of the totals; in both
cases it is clamped into [0, 100000]. -/
def pv_calculate_transfer_rate_percentage (size : Int) (total_written : Int)
    (transfer_rate : ℚ) (percentage : Int) : Int :=
  let percentage :=
    if size ≤ 0 then
      let percentage := if 0 < transfer_rate then percentage + 2 else percentage
      if percentage > 199 then 0 else percentage
    else
      pv_percentage total_written size
  let percentage := if percentage < 0 then 0 else percentage
  if percentage > 100000 then 100000 else percentage

/-- pv_calculate_transfer_rate (src/pv/calc.c lines 78-171), composing the
stages in source order.  Returns the updated transfer and calc states. -/
def pv_calculate_transfer_rate (control : PvControl) (initial_offset : Int)
    (transfer : PvTransfer) (calcst : PvCalc) (final : Bool) : PvTransfer × PvCalc :=
  let measured := pv_calculate_transfer_rate_measure control transfer calcst
  let calc1 := measured.1
  let rate1 := measured.2
  let calc2 := pv__update_average_rate_history calc1 transfer control.history_interval rate1
  let avg1 := calc2.current_avg_rate
  let fin := pv_calculate_transfer_rate_final transfer initial_offset final rate1 avg1
  let transfer2 := fin.1
  let rate2 := fin.2.1
  let avg2 := fin.2.2
  let calc3 := { calc2 with transfer_rate := rate2, average_rate := avg2 }
  let p := pv_calculate_transfer_rate_percentage control.size transfer2.total_written
    rate2 calc3.percentage
  (transfer2, { calc3 with percentage := p })

theorem pv_calculate_transfer_rate_measure_percentage (control : PvControl)
    (transfer : PvTransfer) (calcst : PvCalc) :
    (pv_calculate_transfer_rate_measure control transfer calcst).1.percentage =
      calcst.percentage := by
  simp only [pv_calculate_transfer_rate_measure]
  split_ifs <;> rfl

theorem pv__update_average_rate_history_percentage (calcst : PvCalc)
    (transfer : PvTransfer) (history_interval : ℚ) (rate : ℚ) :
    (pv__update_average_rate_history calcst transfer history_interval rate).percentage =
      calcst.percentage := by
  rcases hh : calcst.history with _ | hist
  · simp only [pv__update_average_rate_history, hh]
  · simp only [pv__update_average_rate_history, hh]
    split_ifs <;> rfl

theorem pv_calculate_transfer_rate_final_total (transfer : PvTransfer)
    (initial_offset : Int) (final : Bool) (transfer_rate average_rate : ℚ) :
    (pv_calculate_transfer_rate_final transfer initial_offset final
        transfer_rate average_rate).1.total_written = transfer.total_written := by
  simp only [pv_calculate_transfer_rate_final]
  split_ifs <;> rfl

/-- The percentage and transfer_rate stored by pv_calculate_transfer_rate,
expressed through the stage functions: the percentage stage runs on the
previous percentage and on the final transfer rate. -/
theorem pv_calculate_transfer_rate_spec (control : PvControl) (initial_offset : Int)
    (transfer : PvTransfer) (calcst : PvCalc) (final : Bool) :
    (pv_calculate_transfer_rate control initial_offset transfer calcst final).2.percentage =
      pv_calculate_transfer_rate_percentage control.size transfer.total_written
        (pv_calculate_transfer_rate control initial_offset transfer calcst final).2.transfer_rate
        calcst.percentage := by
  unfold pv_calculate_transfer_rate
  simp only [pv_calculate_transfer_rate_final_total,
    pv__update_average_rate_history_percentage,
    pv_calculate_transfer_rate_measure_percentage]

theorem pv_calculate_transfer_rate_percentage_unknown (size total : Int) (r : ℚ)
    (p : Int) (hs : size ≤ 0) (h0 : 0 ≤ p) (h1 : p ≤ 199) :
    pv_calculate_transfer_rate_percentage size total r p =
      if 0 < r then (if p + 2 > 199 then 0 else p + 2) else p := by
  unfold pv_calculate_transfer_rate_percentage
  simp only [if_pos hs]
  split_ifs <;> omega

/-- C4: with an unknown total size and a previous percentage in [0, 199],
pv_calculate_transfer_rate advances the percentage by 2 exactly when the
computed transfer rate is positive (leaving it unchanged otherwise), wraps
past 199 back to 0, and always leaves it inside [0, 199]. -/
theorem claim_c4_unknown_size_percentage (control : PvControl) (initial_offset : Int)
    (transfer : PvTransfer) (calcst : PvCalc) (final : Bool)
    (hsize : control.size ≤ 0) (h0 : 0 ≤ calcst.percentage)
    (h1 : calcst.percentage ≤ 199) :
    (0 < (pv_calculate_transfer_rate control initial_offset transfer calcst
          final).2.transfer_rate →
      (pv_calculate_transfer_rate control initial_offset transfer calcst final).2.percentage =
        if calcst.percentage + 2 > 199 then 0 else calcst.percentage + 2) ∧
    ((pv_calculate_transfer_rate control initial_offset transfer calcst
          final).2.transfer_rate ≤ 0 →
      (pv_calculate_transfer_rate control initial_offset transfer calcst final).2.percentage =
        calcst.percentage) ∧
    0 ≤ (pv_calculate_transfer_rate control initial_offset transfer calcst
        final).2.percentage ∧
    (pv_calculate_transfer_rate control initial_offset transfer calcst
        final).2.percentage ≤ 199 := by
  have hspec := pv_calculate_transfer_rate_spec control initial_offset transfer calcst final
  set r := (pv_calculate_transfer_rate control initial_offset transfer calcst
    final).2.transfer_rate with hr
  rw [hspec, pv_calculate_transfer_rate_percentage_unknown _ _ _ _ hsize h0 h1]
  refine ⟨?_, ?_, ?_, ?_⟩
  · intro hpos
    rw [if_pos hpos]
  · intro hneg
    rw [if_neg (by exact not_lt.mpr hneg)]
  · split_ifs <;> omega
  · split_ifs <;> omega

/-- The all-zero initial calculation state, as pv_state_alloc leaves it
(no history allocated). -/
def pvCalcZero : PvCalc :=
  { prev_total_written := 0, prev_elapsed_sec := 0, prev_rate := 0, prev_trans := 0
    rate_min := 0, rate_max := 0, rate_sum := 0, ratesquared_sum := 0
    measurements_taken := 0, history := none, history_first := 0, history_last := 0
    current_avg_rate := 0, transfer_rate := 0, average_rate := 0, percentage := 0 }

/-- C4 witness: size unknown, 5 bytes in 1 second from the zero state:
the rate is 5 and the percentage steps from 0 to 2, inside [0, 199]. -/
theorem claim_c4_unknown_size_percentage_witness :
    (0 < (pv_calculate_transfer_rate ⟨0, false, 1⟩ 0 ⟨5, 1⟩ pvCalcZero
          false).2.transfer_rate →
      (pv_calculate_transfer_rate ⟨0, false, 1⟩ 0 ⟨5, 1⟩ pvCalcZero false).2.percentage =
        if (pvCalcZero.percentage + 2 > 199 : Prop) then 0 else pvCalcZero.percentage + 2) ∧
    ((pv_calculate_transfer_rate ⟨0, false, 1⟩ 0 ⟨5, 1⟩ pvCalcZero
          false).2.transfer_rate ≤ 0 →
      (pv_calculate_transfer_rate ⟨0, false, 1⟩ 0 ⟨5, 1⟩ pvCalcZero false).2.percentage =
        pvCalcZero.percentage) ∧
    0 ≤ (pv_calculate_transfer_rate ⟨0, false, 1⟩ 0 ⟨5, 1⟩ pvCalcZero
        false).2.percentage ∧
    (pv_calculate_transfer_rate ⟨0, false, 1⟩ 0 ⟨5, 1⟩ pvCalcZero
        false).2.percentage ≤ 199 :=
  claim_c4_unknown_size_percentage ⟨0, false, 1⟩ 0 ⟨5, 1⟩ pvCalcZero false
    (by norm_num) (by norm_num [pvCalcZero]) (by norm_num [pvCalcZero])

/-- C1 counterexample: with size 1 known and total_written 2 (the input
overran the declared size), the percentage computed from the zero state
after one second is 200, not at most 100 as the claim states. -/
theorem claim_c1_counterexample :
    (pv_calculate_transfer_rate ⟨1, false, 1⟩ 0 ⟨2, 1⟩ pvCalcZero false).2.percentage =
      200 ∧
    ¬((pv_calculate_transfer_rate ⟨1, false, 1⟩ 0 ⟨2, 1⟩ pvCalcZero
        false).2.percentage ≤ 100) := by
  constructor
  · rfl
  · intro h
    have : (pv_calculate_transfer_rate ⟨1, false, 1⟩ 0 ⟨2, 1⟩ pvCalcZero
        false).2.percentage = 200 := rfl
    omega

theorem pv_percentage_le_100 (total size : Int) (hsize : 0 < size)
    (hle : total ≤ size) : pv_percentage total size ≤ 100 := by
  unfold pv_percentage cdiv
  split_ifs with h
  · calc (100 * total) / size ≤ (100 * size) / size :=
      Int.ediv_le_ediv hsize (by nlinarith)
    _ = 100 := Int.mul_ediv_cancel 100 (by omega)
  · have : 0 ≤ (-(100 * total)) / size := Int.ediv_nonneg (by omega) (by omega)
    omega

/-- C1 amended: with a known size the stored percentage always lies in
[0, 100000] (the clamp at calc.c lines 166-170), and it is at most 100
whenever total_written has not exceeded the size; when total_written
overruns the size it CAN exceed 100, up to the 100000 cap (the
counterexample reaches 200 at size 1 with total_written 2). -/
theorem claim_c1_amended (control : PvControl) (initial_offset : Int)
    (transfer : PvTransfer) (calcst : PvCalc) (final : Bool)
    (hsize : 0 < control.size) :
    0 ≤ (pv_calculate_transfer_rate control initial_offset transfer calcst
        final).2.percentage ∧
    (pv_calculate_transfer_rate control initial_offset transfer calcst
        final).2.percentage ≤ 100000 ∧
    (transfer.total_written ≤ control.size →
      (pv_calculate_transfer_rate control initial_offset transfer calcst
          final).2.percentage ≤ 100) := by
  have hspec := pv_calculate_transfer_rate_spec control initial_offset transfer calcst final
  rw [hspec]
  unfold pv_calculate_transfer_rate_percentage
  have hns : ¬(control.size ≤ 0) := by omega
  simp only [if_neg hns]
  refine ⟨?_, ?_, ?_⟩
  · split_ifs <;> omega
  · split_ifs <;> omega
  · intro hle
    have := pv_percentage_le_100 transfer.total_written control.size hsize hle
    split_ifs <;> omega

/-- C1 amended witness: size 4 with 2 bytes written gives percentage 50,
inside all three bounds. -/
theorem claim_c1_amended_witness :
    0 ≤ (pv_calculate_transfer_rate ⟨4, false, 1⟩ 0 ⟨2, 1⟩ pvCalcZero
        false).2.percentage ∧
    (pv_calculate_transfer_rate ⟨4, false, 1⟩ 0 ⟨2, 1⟩ pvCalcZero
        false).2.percentage ≤ 100000 ∧
    ((2 : Int) ≤ 4 →
      (pv_calculate_transfer_rate ⟨4, false, 1⟩ 0 ⟨2, 1⟩ pvCalcZero
          false).2.percentage ≤ 100) :=
  claim_c1_amended ⟨4, false, 1⟩ 0 ⟨2, 1⟩ pvCalcZero false (by norm_num)

/-! ## src/pv/display.c: pv_format (claim C2)

pv_format runs over the compiled segment plan in three passes: fixed-width
segments render first into a 1024-byte scratch buffer, then dynamic
segments with the leftover width, then all segments concatenate into the
display buffer.  The formatter library behind the format_component
function-pointer table is abstracted as one rendering function per
component: given the target width placed in segment.width, a component
produces its content bytes.  Every formatter routes its output through
pv__format_segmentcontent, which drops content that does not fit in the
scratch buffer; that guard is part of the embedding.  The characters
handled here are single-byte, single-column (pv_strwidth of a run equals
its byte count), and numeric mode - which leaves pv_format early through
pv__format_numeric - is outside this model. -/

/-- One compiled segment of the display format,
struct pvdisplay_segment_s: a type of -1 marks a static stretch of the
format string, any other value indexes the component table.  offset and
bytes locate the content in the format string (static) or in the scratch
buffer (component). -/
structure PvSegment where
  type : Int
  chosen_size : Nat
  offset : Nat
  bytes : Nat
  width : Nat
deriving Repr, DecidableEq

/-- A component of the format_component table as pv_format sees it:
whether it is dynamic, and the content it renders for a given target
width. -/
structure PvComponent where
  dynamic : Bool
  render : Nat → List Char

/-- The byte count that pv__format_segmentcontent (src/pv/display.c lines
455-477) reports for content of this length written at this offset of the
1024-byte scratch buffer: 0 when it does not fit, else the length. -/
def pv__format_segmentcontent_bytes (content : List Char) (offset : Nat) : Nat :=
  let bytes := content.length
  if offset ≥ 1024 ∨ offset + bytes ≥ 1024 then 0 else bytes

/-- The running state of the first pv_format pass. -/
structure Pass1State where
  seg_buf : List Char
  static_width : Nat
  dyn_count : Nat
  segs : List PvSegment
deriving Repr

/-- Pass 1 of pv_format (src/pv/display.c lines 1629-1667) on one
segment: a static segment adds its precomputed width to the static
portion; a dynamic component is only counted; a fixed component renders at
its chosen size into the scratch buffer and its rendered width joins the
static portion. -/
def pv_format_pass1_step (comps : Int → PvComponent) (st : Pass1State)
    (seg : PvSegment) : Pass1State :=
  if seg.type = -1 then
    { st with static_width := st.static_width + seg.width, segs := st.segs ++ [seg] }
  else
    let comp := comps seg.type
    if comp.dynamic ∧ seg.chosen_size = 0 then
      { st with dyn_count := st.dyn_count + 1, segs := st.segs ++ [seg] }
    else
      let content := comp.render seg.chosen_size
      let offset := st.seg_buf.length
      let bytes := pv__format_segmentcontent_bytes content offset
      let seg2 := { seg with width := bytes, offset := offset, bytes := bytes }
      { st with
        seg_buf := st.seg_buf ++ (if 0 < bytes then content else [])
        static_width := st.static_width + bytes
        segs := st.segs ++ [seg2] }

/-- Pass 2 of pv_format (src/pv/display.c lines 1683-1709) on one
segment: only dynamic components render, at the shared dynamic width;
their width field keeps that target width. -/
def pv_format_pass2_step (comps : Int → PvComponent) (dynW : Nat)
    (st : List Char × List PvSegment) (seg : PvSegment) : List Char × List PvSegment :=
  if seg.type = -1 then
    (st.1, st.2 ++ [seg])
  else
    let comp := comps seg.type
    if comp.dynamic ∧ seg.chosen_size = 0 then
      let content := comp.render dynW
      let offset := st.1.length
      let bytes := pv__format_segmentcontent_bytes content offset
      let seg2 := { seg with width := dynW, offset := offset, bytes := bytes }
      (st.1 ++ (if 0 < bytes then content else []), st.2 ++ [seg2])
    else
      (st.1, st.2 ++ [seg])

/-- The running state of the third pv_format pass: the display buffer
contents, the remaining room (display_buffer_remaining), and the
accumulated byte and width counts of the new display string. -/
structure Pass3State where
  out : List Char
  remaining : Nat
  bytes : Nat
  width : Nat
deriving Repr

/-- Pass 3 of pv_format (src/pv/display.c lines 1721-1744) on one
segment: segments with no bytes, or with more bytes than the room left in
the display buffer, are dropped whole; the rest copy their content from
the format string or the scratch buffer. -/
def pv_format_pass3_step (fmt seg_buf : List Char) (st : Pass3State)
    (seg : PvSegment) : Pass3State :=
  if seg.bytes = 0 then st
  else if seg.bytes > st.remaining then st
  else
    let content := if seg.type = -1
      then (fmt.drop seg.offset).take seg.bytes
      else (seg_buf.drop seg.offset).take seg.bytes
    { out := st.out ++ content
      remaining := st.remaining - seg.bytes
      bytes := st.bytes + seg.bytes
      width := st.width + seg.width }

/-- Pass 3 over a whole segment list. -/
def pv_format_pass3 (fmt seg_buf : List Char) (st : Pass3State) :
    List PvSegment → Pass3State
  | [] => st
  | seg :: rest => pv_format_pass3 fmt seg_buf (pv_format_pass3_step fmt seg_buf st seg) rest

/-- pv_strlcat (src/pv/string.c lines 88-113) for a destination that is
already NUL-terminated within dstsize and holds no interior NUL: at most
dstsize - length(dst) - 1 bytes of src are appended. -/
def pv_strlcat_append (dst src : List Char) (dstsize : Nat) : List Char :=
  let available := dstsize - dst.length
  if available > 1 then dst ++ src.take (available - 1) else dst

/-- The size_t subtraction of C, wrapping modulo 2^64, as used for
terminal_width - static_portion_width at src/pv/display.c line 1674. -/
def sub64 (a b : Nat) : Nat := ((a + 2 ^ 64) - b % 2 ^ 64) % 2 ^ 64

/-- The tail of pv_format (src/pv/display.c lines 1749-1776): the shrink
padding of up to 15 spaces via pv_strlcat when the rendered width fell
while the terminal did not narrow.  Returns the display buffer contents
and the stored display_string_bytes and display_string_width. -/
def pv_format_finish (bufsize : Nat) (p3 : Pass3State)
    (prev_string_width prev_screen_width width : Nat) : List Char × Nat × Nat :=
  if p3.width < prev_string_width ∧ prev_screen_width ≤ width then
    let spaces_to_add := min (prev_string_width - p3.width) 15
    (pv_strlcat_append p3.out (List.replicate spaces_to_add ' ') bufsize,
     p3.bytes + spaces_to_add, p3.width + spaces_to_add)
  else
    (p3.out, p3.bytes, p3.width)

/-- pv_format (src/pv/display.c lines 1541-1777) after the early exits:
the three passes over the compiled segments, then the shrink padding.
width is control.width, nameLen the length of control.name (0 when
unset), so the display buffer holds 2 * width + 80 + nameLen bytes.
Returns the display buffer contents and the stored display_string_bytes
and display_string_width. -/
def pv_format (width nameLen : Nat) (fmt : List Char) (comps : Int → PvComponent)
    (segments : List PvSegment) (prev_string_width prev_screen_width : Nat) :
    List Char × Nat × Nat :=
  let p1 := segments.foldl (pv_format_pass1_step comps)
    { seg_buf := [], static_width := 0, dyn_count := 0, segs := [] }
  let dynRaw := sub64 width p1.static_width
  let dynW := if p1.dyn_count > 1 then dynRaw / p1.dyn_count else dynRaw
  let p2 := p1.segs.foldl (pv_format_pass2_step comps dynW) (p1.seg_buf, [])
  let bufsize := 2 * width + 80 + nameLen
  let p3 := pv_format_pass3 fmt p2.1
    { out := [], remaining := bufsize - 1, bytes := 0, width := 0 } p2.2
  pv_format_finish bufsize p3 prev_string_width prev_screen_width width

/-- pv__format_init (src/pv/display.c lines 1340-1521) restricted to
format strings that contain no percent sign: the scan at lines 1467-1484
reaches the end without finding one, so the whole string becomes a single
static segment whose width pv_strwidth computes (equal to the byte count
for the single-byte characters modelled here); an empty format string
produces no segments. -/
def pv__format_init_nopercent (fmt : List Char) : List PvSegment :=
  if fmt.length = 0 then []
  else [{ type := -1, chosen_size := 0, offset := 0, bytes := fmt.length,
          width := fmt.length }]

/-- A component table with every slot empty; the plans built by
pv__format_init_nopercent never consult it. -/
def pvNoComponents : Int → PvComponent := fun _ => { dynamic := false, render := fun _ => [] }

theorem pv_format_pass3_step_len (fmt seg_buf : List Char) (st : Pass3State)
    (seg : PvSegment) :
    (pv_format_pass3_step fmt seg_buf st seg).out.length +
        (pv_format_pass3_step fmt seg_buf st seg).remaining ≤
      st.out.length + st.remaining := by
  simp only [pv_format_pass3_step]
  split_ifs with h1 h2 h3 <;>
    try simp only [List.length_append, List.length_take, List.length_drop]
  all_goals omega

theorem pv_format_pass3_len (fmt seg_buf : List Char) (segs : List PvSegment)
    (st : Pass3State) :
    (pv_format_pass3 fmt seg_buf st segs).out.length +
        (pv_format_pass3 fmt seg_buf st segs).remaining ≤
      st.out.length + st.remaining := by
  induction segs generalizing st with
  | nil => exact le_rfl
  | cons seg rest ih =>
    calc (pv_format_pass3 fmt seg_buf (pv_format_pass3_step fmt seg_buf st seg) rest).out.length +
        (pv_format_pass3 fmt seg_buf (pv_format_pass3_step fmt seg_buf st seg) rest).remaining ≤
          (pv_format_pass3_step fmt seg_buf st seg).out.length +
            (pv_format_pass3_step fmt seg_buf st seg).remaining :=
        ih (pv_format_pass3_step fmt seg_buf st seg)
    _ ≤ st.out.length + st.remaining := pv_format_pass3_step_len fmt seg_buf st seg

theorem pv_strlcat_append_len (dst src : List Char) (dstsize : Nat)
    (h : dst.length ≤ dstsize - 1) :
    (pv_strlcat_append dst src dstsize).length ≤ dstsize - 1 := by
  simp only [pv_strlcat_append]
  split_ifs with ha
  · simp only [List.length_append, List.length_take]
    omega
  · exact h

theorem pv_format_finish_len (bufsize : Nat) (p3 : Pass3State)
    (prev_string_width prev_screen_width width : Nat)
    (h : p3.out.length ≤ bufsize - 1) :
    (pv_format_finish bufsize p3 prev_string_width prev_screen_width width).1.length ≤
      bufsize - 1 := by
  simp only [pv_format_finish]
  split_ifs with hc
  · exact pv_strlcat_append_len _ _ _ h
  · exact h

/-- C2 counterexample: a 1-column terminal with the percent-free format
string abc: the assembled line is the full 3-byte, 3-column string, so
both the stored display width and the buffer length exceed the terminal
width of 1. -/
theorem claim_c2_counterexample :
    (pv_format 1 0 ['a', 'b', 'c'] pvNoComponents
        (pv__format_init_nopercent ['a', 'b', 'c']) 0 0).2.2 = 3 ∧
    (pv_format 1 0 ['a', 'b', 'c'] pvNoComponents
        (pv__format_init_nopercent ['a', 'b', 'c']) 0 0).1 = ['a', 'b', 'c'] ∧
    ¬((pv_format 1 0 ['a', 'b', 'c'] pvNoComponents
        (pv__format_init_nopercent ['a', 'b', 'c']) 0 0).2.2 ≤ 1) := by
  refine ⟨rfl, rfl, ?_⟩
  intro h
  have : (pv_format 1 0 ['a', 'b', 'c'] pvNoComponents
      (pv__format_init_nopercent ['a', 'b', 'c']) 0 0).2.2 = 3 := rfl
  omega

/-- C2 amended: pv_format renders fixed-width segments first, hands each
dynamic segment the size_t quotient (terminal_width - static_portion) /
dynamic_segment_count of the leftover width, and in the assembly pass
drops any segment that would overflow the display buffer, so the
assembled line never exceeds the buffer capacity of
2 * terminal_width + 79 + name-length bytes; its displayed width, however,
can exceed the terminal width whenever the fixed portion alone is wider
than the terminal (the code never truncates to control.width). -/
theorem claim_c2_amended (width nameLen : Nat) (fmt : List Char)
    (comps : Int → PvComponent) (segments : List PvSegment)
    (prev_string_width prev_screen_width : Nat) :
    (pv_format width nameLen fmt comps segments
        prev_string_width prev_screen_width).1.length ≤
      2 * width + 79 + nameLen := by
  have key : ∀ (sbuf : List Char) (segs : List PvSegment),
      (pv_format_pass3 fmt sbuf
        { out := [], remaining := 2 * width + 80 + nameLen - 1, bytes := 0, width := 0 }
        segs).out.length ≤ 2 * width + 80 + nameLen - 1 := by
    intro sbuf segs
    have := pv_format_pass3_len fmt sbuf segs
      { out := [], remaining := 2 * width + 80 + nameLen - 1, bytes := 0, width := 0 }
    simp only [List.length_nil] at this
    omega
  simp only [pv_format]
  exact le_trans (pv_format_finish_len _ _ _ _ _ (key _ _)) (by omega)
